import Mathlib

/-!
Shallow embedding of `node-exeunt` (TritonDataCenter/node-exeunt).

The repository's core is `lib/exeunt.js`:

* `exeuntSetBlockingAndExitImmediate(code)` — normalises an omitted exit
  code to 0, sets stdout/stderr to blocking mode, and schedules
  `process.exit(code)` via `setImmediate` so that one more pass through the
  event loop services pending I/O before the process terminates.
* `setBlocking()` — for each of `process.stdout`, `process.stderr`, runs
  `s && s._handle && s._handle.setBlocking && s._handle.setBlocking(true)`.

We embed two views of the code:

1. A JS value-level model of the streams (`Handle`, `Stream`, `Streams`)
   in which property access on a missing object is a runtime error
   (JS `TypeError`), so that the short-circuit guards of `setBlocking`
   are meaningful: `setBlockingStream` is `Except`-valued and the theorems
   show it never errors.
2. An event-loop model (`Chan`, `Sys`, `Task`) with a non-blocking write
   buffer of capacity `cap`, a `setImmediate` queue, a timer queue and an
   `exited` flag, in which the deferral and flushing behaviour of
   `exeuntSetBlockingAndExitImmediate` is proved.

The demo scripts under `examples/` and the `softExit` helper referenced by
the README are modelled further below.
-/

namespace Exeunt

/-! ## Part A: JS value-level model of `setBlocking` -/

/-- The `_handle` object of a node stream: it may or may not expose a
`setBlocking` method, and carries the current blocking-mode flag of the
underlying transport. -/
structure Handle where
  hasSetBlocking : Bool
  blocking : Bool
deriving DecidableEq, Repr

/-- A node stream object: its `_handle` property may be absent (falsy). -/
structure Stream where
  handle : Option Handle
deriving DecidableEq, Repr

/-- The two global output channels; each of `process.stdout` /
`process.stderr` may itself be absent (falsy). -/
structure Streams where
  stdout : Option Stream
  stderr : Option Stream
deriving DecidableEq, Repr

/-- JS property access `s._handle`: a runtime `TypeError` when `s` is
absent (undefined). -/
def jsGetHandle : Option Stream → Except String (Option Handle)
  | none => .error "TypeError: Cannot read property _handle of undefined"
  | some s => .ok s.handle

/-- JS method call `h.setBlocking(arg)`: a runtime `TypeError` when the
handle is absent or does not expose the method; otherwise it sets the
blocking-mode flag of the transport to `arg`. -/
def jsCallSetBlocking (arg : Bool) : Option Handle → Except String Handle
  | none => .error "TypeError: Cannot read property setBlocking of undefined"
  | some h =>
    if h.hasSetBlocking then .ok { h with blocking := arg }
    else .error "TypeError: setBlocking is not a function"

/-- One iteration of the `forEach` body of `setBlocking` in
`lib/exeunt.js`:
`s && s._handle && s._handle.setBlocking && s._handle.setBlocking(true)`.
Each `match` / `if` is one short-circuit truthiness test of the `&&`
chain; the method call itself goes through the fallible
`jsCallSetBlocking`. -/
def setBlockingStream (s? : Option Stream) : Except String (Option Stream) :=
  match s? with
  | none => .ok none
  | some s =>
    match s.handle with
    | none => .ok (some s)
    | some h =>
      if h.hasSetBlocking then
        match jsCallSetBlocking true (some h) with
        | .ok h' => .ok (some ⟨some h'⟩)
        | .error e => .error e
      else .ok (some s)

/-- `setBlocking()` from `lib/exeunt.js`:
`[process.stdout, process.stderr].forEach(...)`, stdout first. -/
def setBlocking (ss : Streams) : Except String Streams := do
  let o ← setBlockingStream ss.stdout
  let e ← setBlockingStream ss.stderr
  pure ⟨o, e⟩

/-- The capability guard of `setBlocking`: the channel exists, has an
underlying `_handle`, and that handle exposes `setBlocking`. -/
def streamHasCap : Option Stream → Bool
  | some ⟨some h⟩ => h.hasSetBlocking
  | _ => false

/-- Force the handle's blocking-mode flag to `true` (the effect of the
`setBlocking(true)` call), leaving any other configuration untouched. -/
def forceBlocking : Option Stream → Option Stream
  | some ⟨some h⟩ => some ⟨some { h with blocking := true }⟩
  | x => x

/-- The total function computed by `setBlockingStream` (proved below):
toggle to blocking exactly when the capability guard holds. -/
def sbResult (s? : Option Stream) : Option Stream :=
  if streamHasCap s? then forceBlocking s? else s?

/-- The current blocking-mode flag of a channel's transport, when the
channel and its handle exist. -/
def streamBlocking : Option Stream → Option Bool
  | some ⟨some h⟩ => some h.blocking
  | _ => none

/-! ## Part B: event-loop model of `exeuntSetBlockingAndExitImmediate`

The runtime facilities the code leans on — `setImmediate`, timers, the
`uv__io_poll` pass, and the kernel's non-blocking pipe buffer — are not
part of this repository; they are modelled from the spec's description
(§5, §6, §9: a single-threaded cooperative task queue whose one extra
iteration services pending I/O before the `setImmediate` callbacks run,
and a non-blocking buffer of capacity `cap` beyond which writes are
deferred to the next polling pass). -/

/-- A JS value as passed for the `code` argument: `undefined`, `null`,
`NaN`, or a (possibly non-integer) number. -/
inductive JSVal where
  | undef
  | jsNull
  | nan
  | num (q : Rat)
deriving DecidableEq, Repr

/-- An output channel of the event-loop model. `written` counts every byte
the program has written to it; `delivered` counts bytes that have reached
the downstream consumer (and hence survive process termination). In
non-blocking mode at most `cap` bytes are delivered without an extra
polling pass; the difference `written - delivered` is buffered. `hasCap`
records whether the channel's handle exposes the `setBlocking` toggle. -/
structure Chan where
  blocking : Bool
  hasCap : Bool
  written : Nat
  delivered : Nat
deriving DecidableEq, Repr

/-- Write `n` bytes to a channel with kernel buffer capacity `cap`.
A blocking write does not return until the transport has accepted all
pending data; a non-blocking write delivers at most `cap` bytes total
without a polling pass and buffers the rest. -/
def Chan.write (cap n : Nat) (c : Chan) : Chan :=
  let w := c.written + n
  { c with written := w
         , delivered := if c.blocking then w else max c.delivered (min w cap) }

/-- The effect on one channel of the guarded `setBlocking(true)` call:
toggled to blocking exactly when the capability is exposed. -/
def Chan.setBlock (c : Chan) : Chan :=
  if c.hasCap then { c with blocking := true } else c

/-- One I/O polling pass over a channel (the `uv__io_poll` servicing,
absent the bounded-event-count edge case): every buffered byte is
drained to the consumer. -/
def Chan.poll (c : Chan) : Chan :=
  { c with delivered := c.written }

/-- A queued callback: the `processExit` closure scheduled by
`exeuntSetBlockingAndExitImmediate`, a write by other application code,
or an inert callback. -/
inductive Task where
  | exitTask (code : JSVal)
  | writeOut (n : Nat)
  | noop
deriving DecidableEq, Repr

/-- The process state of the event-loop model: the two standard channels,
the `setImmediate` queue, the timer queue, and the exit status once
`process.exit` has run. -/
structure Sys where
  out : Chan
  err : Chan
  immediates : List Task
  timers : List Task
  exited : Option JSVal
deriving DecidableEq, Repr

/-- A synchronous `process.stdout.write(n bytes)` by the program. -/
def Sys.write (cap n : Nat) (s : Sys) : Sys :=
  { s with out := s.out.write cap n }

/-- `setBlocking()` of `lib/exeunt.js` in the event-loop model: both
standard channels are toggled (subject to their capability guard). -/
def setBlockingSys (s : Sys) : Sys :=
  { s with out := s.out.setBlock, err := s.err.setBlock }

/-- The `if (code === undefined) { code = 0; }` normalisation at the top
of `exeuntSetBlockingAndExitImmediate`. -/
def normalizeCode (v : JSVal) : JSVal :=
  if v = .undef then .num 0 else v

/-- The synchronous turn of `exeuntSetBlockingAndExitImmediate(code)`
(`lib/exeunt.js`): normalise the code, set stdout/stderr blocking, then
`setImmediate(function processExit() { process.exit(code); })` — i.e.
append the exit callback to the `setImmediate` queue and return. -/
def exeuntSync (code : JSVal) (s : Sys) : Sys :=
  let code := normalizeCode code
  let s := setBlockingSys s
  { s with immediates := s.immediates ++ [Task.exitTask code] }

/-- Run one queued callback. `process.exit` records the status; nothing
else can set `exited`. -/
def runTask (cap : Nat) (t : Task) (s : Sys) : Sys :=
  match t with
  | .exitTask c => { s with exited := some c }
  | .writeOut n => s.write cap n
  | .noop => s

/-- Run a list of queued callbacks in order; once the process has exited
no further callback runs. -/
def runTasks (cap : Nat) : List Task → Sys → Sys
  | [], s => s
  | t :: ts, s => if s.exited.isSome then s else runTasks cap ts (runTask cap t s)

/-- The timers phase of one event-loop iteration. -/
def runTimers (cap : Nat) (s : Sys) : Sys :=
  runTasks cap s.timers { s with timers := [] }

/-- The I/O polling phase of one event-loop iteration (`uv__io_poll`):
services pending writes on both channels, absent the bounded-event-count
edge case; does nothing once the process has exited. -/
def ioPoll (s : Sys) : Sys :=
  if s.exited.isSome then s else { s with out := s.out.poll, err := s.err.poll }

/-- The check phase of one event-loop iteration: the `setImmediate`
callbacks run. -/
def runImmediates (cap : Nat) (s : Sys) : Sys :=
  runTasks cap s.immediates { s with immediates := [] }

/-- One further iteration of the event loop after the current turn:
timers, then the I/O polling pass, then the `setImmediate` callbacks. -/
def runLoopOnce (cap : Nat) (s : Sys) : Sys :=
  runImmediates cap (ioPoll (runTimers cap s))

/-- Does a task list contain a `process.exit` callback? -/
def hasExitTask : List Task → Bool
  | [] => false
  | .exitTask _ :: _ => true
  | _ :: ts => hasExitTask ts

/-- Writes issued by caller statements that run after
`exeuntSetBlockingAndExitImmediate` returns, still in the same turn. -/
def callerWrites (cap : Nat) (ns : List Nat) (s : Sys) : Sys :=
  ns.foldl (fun s n => s.write cap n) s

/-- A fresh process: both channels non-blocking with the toggle
capability, nothing written, nothing queued, not exited. -/
def initChan : Chan := ⟨false, true, 0, 0⟩

def initSys : Sys := ⟨initChan, initChan, [], [], none⟩

/-! ### The operations of the system, for the monotonicity claim -/

/-- Every operation the system performs on the process state: program
writes, calls to `exeuntSetBlockingAndExitImmediate`, direct
`process.exit`, and the three phases of an event-loop iteration. -/
inductive Op where
  | write (n : Nat)
  | exeunt (c : JSVal)
  | procExit (c : JSVal)
  | pollPhase
  | immPhase
  | timerPhase
deriving DecidableEq, Repr

def applyOp (cap : Nat) : Op → Sys → Sys
  | .write n, s => s.write cap n
  | .exeunt c, s => exeuntSync c s
  | .procExit c, s => { s with exited := some c }
  | .pollPhase, s => ioPoll s
  | .immPhase, s => runImmediates cap s
  | .timerPhase, s => runTimers cap s

def applyOps (cap : Nat) (ops : List Op) (s : Sys) : Sys :=
  ops.foldl (fun s op => applyOp cap op s) s

/-! ## Part C: the `softExit` helper

Modelled from the spec: `softExit` is referenced by the README ("here is a
`softExit()` function" pointing into `lib/exeunt.js`) and called by the
hardball demo script, but its definition is not among the provided
sources. Per the spec (§4.2): given a code (default 0), if the runtime
supports deferred/non-terminating exit-code assignment
(`process.exitCode`), set that process-wide exit code and return
normally; otherwise fall back to immediate forced termination
(`process.exit`) only when the code is non-zero, and for code zero do
nothing. -/

/-- The slice of process state `softExit` touches: the deferred
`process.exitCode` property and the status of a forced `process.exit`,
when one happened. -/
structure SoftState where
  exitCode : Option Int
  exited : Option Int
deriving DecidableEq, Repr

/-- Modelled from the spec: the `softExit(code)` helper of §4.2 (its
source, README-linked in `lib/exeunt.js`, is not among the provided
files). `supportsExitCode` says whether the runtime has the
non-terminating `process.exitCode` capability. -/
def softExit (supportsExitCode : Bool) (code : Option Int) (s : SoftState) : SoftState :=
  let c := code.getD 0
  if supportsExitCode then { s with exitCode := some c }
  else if c ≠ 0 then { s with exited := some c }
  else s

/-! ## Part D: the demo scripts

The two demo programs the claims cite: `write-65k-and-exit.js`
(write a blob, `process.exit(42)`) and `hardball-after-2s.js`
(write a blob, `exeunt.softExit(42)`, with a 2-second unref'd timeout
that falls back to `process.exit(42)`). Both compute
`var size = Number(process.argv[2]) || 65 * 1024;` and write
`'[meta] start: writing ' + size + ' bytes...\n'`, the `size`-byte
buffer, and `'\n[meta] done\n'`, all to stdout. -/

/-- The demos' default byte count, `65 * 1024`. -/
def defaultDemoSize : Int := 65 * 1024

/-- `Number(process.argv[2]) || 65 * 1024`: with no argument,
`Number(undefined)` is `NaN`, which is falsy; with an integer argument
the parsed number is falsy exactly when it is `0`. -/
def demoSize (arg : Option Int) : Int :=
  match arg with
  | none => defaultDemoSize
  | some n => if n = 0 then defaultDemoSize else n

/-- One `process.stdout.write` of a demo: a diagnostic line, or a data
blob of the given byte count. -/
inductive WriteItem where
  | line (s : String)
  | blob (n : Int)
deriving DecidableEq, Repr

/-- The first diagnostic line of the demos. -/
def demoStartLine (size : Int) : String :=
  "[meta] start: writing " ++ toString size ++ " bytes...\n"

/-- The second diagnostic line of the demos. -/
def demoDoneLine : String := "\n[meta] done\n"

/-- What a demo program does, observably: its stdout writes in order, and
the process exit status. -/
structure DemoOutcome where
  stdoutWrites : List WriteItem
  exitStatus : Int
deriving DecidableEq, Repr

/-- `examples/write-65k-and-exit.js`: write the framed blob to stdout,
then `process.exit(42)`. -/
def writeAndExitDemo (arg : Option Int) : DemoOutcome :=
  let size := demoSize arg
  { stdoutWrites := [.line (demoStartLine size), .blob size, .line demoDoneLine]
  , exitStatus := 42 }

/-- `examples/hardball-after-2s.js`: the same framed blob to stdout, then
`hardballExit(42)` — `exeunt.softExit(42)` followed by an unref'd
2-second timeout calling `process.exit(42)`. Whether or not the runtime
supports `process.exitCode` (and whether the still-running interval
forces the timeout path), every exit path carries status 42. -/
def hardballDemo (arg : Option Int) : DemoOutcome :=
  let size := demoSize arg
  { stdoutWrites := [.line (demoStartLine size), .blob size, .line demoDoneLine]
  , exitStatus := 42 }

/-! ### Basic lemmas about the event-loop model -/

theorem runTask_blocking (cap : Nat) (t : Task) (s : Sys) :
    (runTask cap t s).out.blocking = s.out.blocking ∧
      (runTask cap t s).err.blocking = s.err.blocking := by
  cases t <;> simp [runTask, Sys.write, Chan.write]

theorem runTask_queues (cap : Nat) (t : Task) (s : Sys) :
    (runTask cap t s).immediates = s.immediates ∧ (runTask cap t s).timers = s.timers := by
  cases t <;> simp [runTask, Sys.write]

theorem runTask_exited_of_not_exit (cap : Nat) (t : Task) (s : Sys)
    (h : ∀ c, t ≠ .exitTask c) : (runTask cap t s).exited = s.exited := by
  cases t with
  | exitTask c => exact absurd rfl (h c)
  | writeOut n => rfl
  | noop => rfl

theorem runTasks_blocking (cap : Nat) (l : List Task) (s : Sys) :
    (runTasks cap l s).out.blocking = s.out.blocking ∧
      (runTasks cap l s).err.blocking = s.err.blocking := by
  induction l generalizing s with
  | nil => exact ⟨rfl, rfl⟩
  | cons t ts ih =>
    by_cases h : s.exited.isSome
    · simp [runTasks, h]
    · have h1 := runTask_blocking cap t s
      have h2 := ih (runTask cap t s)
      simp only [runTasks, h, if_false]
      exact ⟨h2.1.trans h1.1, h2.2.trans h1.2⟩

theorem runTasks_queues (cap : Nat) (l : List Task) (s : Sys) :
    (runTasks cap l s).immediates = s.immediates ∧
      (runTasks cap l s).timers = s.timers := by
  induction l generalizing s with
  | nil => exact ⟨rfl, rfl⟩
  | cons t ts ih =>
    by_cases h : s.exited.isSome
    · simp [runTasks, h]
    · have h1 := runTask_queues cap t s
      have h2 := ih (runTask cap t s)
      simp only [runTasks, h, if_false]
      exact ⟨h2.1.trans h1.1, h2.2.trans h1.2⟩

theorem runTasks_exited_of_no_exit (cap : Nat) (l : List Task) (s : Sys)
    (h : hasExitTask l = false) : (runTasks cap l s).exited = s.exited := by
  induction l generalizing s with
  | nil => rfl
  | cons t ts ih =>
    by_cases hs : s.exited.isSome
    · simp [runTasks, hs]
    · simp only [runTasks, hs, if_false]
      cases t with
      | exitTask c => simp [hasExitTask] at h
      | writeOut n =>
        exact (ih _ (by simpa [hasExitTask] using h)).trans rfl
      | noop =>
        exact (ih _ (by simpa [hasExitTask] using h)).trans rfl

theorem runTasks_append_exit (cap : Nat) (l : List Task) (c : JSVal) (s : Sys)
    (hs : s.exited = none) (hl : hasExitTask l = false) :
    (runTasks cap (l ++ [Task.exitTask c]) s).exited = some c := by
  induction l generalizing s with
  | nil => simp [runTasks, hs, runTask]
  | cons t ts ih =>
    simp only [List.cons_append, runTasks, hs, Option.isSome_none, Bool.false_eq_true, if_false]
    cases t with
    | exitTask c' => simp [hasExitTask] at hl
    | writeOut n =>
      exact ih _ (by simp [runTask, Sys.write, hs]) (by simpa [hasExitTask] using hl)
    | noop =>
      exact ih _ (by simp [runTask, hs]) (by simpa [hasExitTask] using hl)

theorem ioPoll_queues_exited (s : Sys) :
    (ioPoll s).immediates = s.immediates ∧ (ioPoll s).timers = s.timers ∧
      (ioPoll s).exited = s.exited := by
  by_cases h : s.exited.isSome <;> simp [ioPoll, h]

theorem ioPoll_blocking (s : Sys) :
    (ioPoll s).out.blocking = s.out.blocking ∧ (ioPoll s).err.blocking = s.err.blocking := by
  by_cases h : s.exited.isSome <;> simp [ioPoll, h, Chan.poll]

theorem callerWrites_fields (cap : Nat) (ns : List Nat) (s : Sys) :
    (callerWrites cap ns s).immediates = s.immediates ∧
      (callerWrites cap ns s).timers = s.timers ∧
      (callerWrites cap ns s).exited = s.exited := by
  induction ns generalizing s with
  | nil => exact ⟨rfl, rfl, rfl⟩
  | cons n ns ih =>
    have h := ih (s.write cap n)
    simpa [callerWrites, Sys.write] using h

theorem setBlockingSys_fields (s : Sys) :
    (setBlockingSys s).immediates = s.immediates ∧
      (setBlockingSys s).timers = s.timers ∧ (setBlockingSys s).exited = s.exited :=
  ⟨rfl, rfl, rfl⟩

theorem setBlock_mono (c : Chan) (h : c.blocking = true) : c.setBlock.blocking = true := by
  by_cases hc : c.hasCap <;> simp [Chan.setBlock, hc, h]

theorem applyOp_blocking_mono (cap : Nat) (op : Op) (s : Sys) :
    (s.out.blocking = true → (applyOp cap op s).out.blocking = true) ∧
      (s.err.blocking = true → (applyOp cap op s).err.blocking = true) := by
  cases op with
  | write n => simp [applyOp, Sys.write, Chan.write]
  | exeunt c =>
    exact ⟨fun h => setBlock_mono s.out h, fun h => setBlock_mono s.err h⟩
  | procExit c => simp [applyOp]
  | pollPhase =>
    exact ⟨fun h => (ioPoll_blocking s).1.trans h, fun h => (ioPoll_blocking s).2.trans h⟩
  | immPhase =>
    have h := runTasks_blocking cap s.immediates { s with immediates := [] }
    constructor <;> intro hb <;> simp [applyOp, runImmediates] <;> simp_all
  | timerPhase =>
    have h := runTasks_blocking cap s.timers { s with timers := [] }
    constructor <;> intro hb <;> simp [applyOp, runTimers] <;> simp_all

theorem applyOps_blocking_mono (cap : Nat) (ops : List Op) (s : Sys) :
    (s.out.blocking = true → (applyOps cap ops s).out.blocking = true) ∧
      (s.err.blocking = true → (applyOps cap ops s).err.blocking = true) := by
  induction ops generalizing s with
  | nil => exact ⟨fun h => h, fun h => h⟩
  | cons op ops ih =>
    have h1 := applyOp_blocking_mono cap op s
    have h2 := ih (applyOp cap op s)
    exact ⟨fun h => h2.1 (h1.1 h), fun h => h2.2 (h1.2 h)⟩


/-- The full deferred path: when the state entering the next loop
iteration has queued the `processExit` callback last, has no competing
exit callback, and the process has not already exited, the iteration ends
in `process.exit` with that code. -/
theorem runLoopOnce_exits (cap : Nat) (l : List Task) (c : JSVal) (s2 : Sys)
    (hx : s2.exited = none) (ht : hasExitTask s2.timers = false)
    (hi : s2.immediates = l ++ [Task.exitTask c]) (hl : hasExitTask l = false) :
    (runLoopOnce cap s2).exited = some c := by
  have t_x : (runTimers cap s2).exited = none := by
    have h := runTasks_exited_of_no_exit cap s2.timers { s2 with timers := [] } ht
    simpa [runTimers, hx] using h
  have t_i : (runTimers cap s2).immediates = l ++ [Task.exitTask c] := by
    have h := (runTasks_queues cap s2.timers { s2 with timers := [] }).1
    simpa [runTimers, hi] using h
  obtain ⟨p_i, p_t, p_x⟩ := ioPoll_queues_exited (runTimers cap s2)
  have hx4 : (ioPoll (runTimers cap s2)).exited = none := p_x.trans t_x
  have hi4 : (ioPoll (runTimers cap s2)).immediates = l ++ [Task.exitTask c] :=
    p_i.trans t_i
  show (runTasks cap (ioPoll (runTimers cap s2)).immediates
      { ioPoll (runTimers cap s2) with immediates := [] }).exited = some c
  rw [hi4]
  exact runTasks_append_exit cap l c _ (by simpa using hx4) hl

theorem exeunt_run_exits (cap : Nat) (v : JSVal) (s : Sys) (post : List Nat)
    (h1 : s.exited = none) (h2 : hasExitTask s.immediates = false)
    (h3 : hasExitTask s.timers = false) :
    (runLoopOnce cap (callerWrites cap post (exeuntSync v s))).exited
      = some (normalizeCode v) := by
  obtain ⟨c2i, c2t, c2x⟩ := callerWrites_fields cap post (exeuntSync v s)
  refine runLoopOnce_exits cap s.immediates (normalizeCode v) _ ?_ ?_ ?_ h2
  · rw [c2x]; exact h1
  · rw [c2t]; exact h3
  · rw [c2i]; exact rfl

/-! ### Lemmas about the value-level `setBlocking` -/

theorem setBlockingStream_eq_ok (s? : Option Stream) :
    setBlockingStream s? = .ok (sbResult s?) := by
  match s? with
  | none => rfl
  | some ⟨none⟩ => rfl
  | some ⟨some h⟩ =>
    by_cases hc : h.hasSetBlocking
    · simp [setBlockingStream, jsCallSetBlocking, sbResult, streamHasCap, forceBlocking, hc]
    · simp [setBlockingStream, sbResult, streamHasCap, forceBlocking, hc]

theorem setBlocking_eq_ok (ss : Streams) :
    setBlocking ss = .ok ⟨sbResult ss.stdout, sbResult ss.stderr⟩ := by
  simp [setBlocking, setBlockingStream_eq_ok, Except.bind, Bind.bind, pure, Except.pure]

theorem sbResult_idem (s? : Option Stream) : sbResult (sbResult s?) = sbResult s? := by
  match s? with
  | none => rfl
  | some ⟨none⟩ => rfl
  | some ⟨some h⟩ =>
    by_cases hc : h.hasSetBlocking
    · simp [sbResult, streamHasCap, forceBlocking, hc]
    · simp [sbResult, streamHasCap, hc]

/-! ## The claims -/

/-- Claim C1: for every call `terminate(c)`, the process-termination
primitive is never invoked synchronously in the same scheduler turn as
the call: `exeuntSetBlockingAndExitImmediate` first sets both standard
streams to blocking mode, then schedules the termination callback with
`setImmediate` (leaving the timer queue untouched, so it is not a
zero-delay timer), and `process.exit` runs only when that scheduled
callback fires in the immediates phase of a later loop iteration. -/
theorem exeunt_defers_exit (cap : Nat) (c : JSVal) (s : Sys) :
    exeuntSync c s
        = { setBlockingSys s with
            immediates := (setBlockingSys s).immediates ++ [Task.exitTask (normalizeCode c)] }
    ∧ (exeuntSync c s).exited = s.exited
    ∧ (exeuntSync c s).timers = s.timers
    ∧ (ioPoll (exeuntSync c s)).exited = s.exited
    ∧ (s.exited = none → hasExitTask s.immediates = false →
        (runImmediates cap (exeuntSync c s)).exited = some (normalizeCode c)) := by
  refine ⟨rfl, rfl, rfl, ?_, ?_⟩
  · exact (ioPoll_queues_exited (exeuntSync c s)).2.2
  · intro hx hi
    show (runTasks cap (exeuntSync c s).immediates
        { exeuntSync c s with immediates := [] }).exited = some (normalizeCode c)
    have him : (exeuntSync c s).immediates
        = s.immediates ++ [Task.exitTask (normalizeCode c)] := rfl
    rw [him]
    exact runTasks_append_exit cap s.immediates (normalizeCode c) _ (by simpa using hx) hi

theorem exeunt_defers_exit_witness :
    (exeuntSync (.num 3) initSys).exited = none
    ∧ (runImmediates 16 (exeuntSync (.num 3) initSys)).exited
        = some (.num 3) := by
  have h := exeunt_defers_exit 16 (.num 3) initSys
  exact ⟨h.2.1, by simpa [normalizeCode] using h.2.2.2.2 rfl rfl⟩

/-- Claim C2: for every exit code `c`, `terminate(c)` eventually causes
the process to terminate with status exactly `c`, passed through
unchanged, and an omitted (`undefined`) code argument yields status 0;
writes the caller issues after the call (its synchronous continuation)
cannot change or avert that status. Hypotheses: the process has not
already exited and no competing `process.exit` callback is queued. -/
theorem exeunt_terminates_with_status (cap : Nat) (c : Int) (s : Sys) (post : List Nat)
    (h1 : s.exited = none) (h2 : hasExitTask s.immediates = false)
    (h3 : hasExitTask s.timers = false) :
    (runLoopOnce cap (callerWrites cap post (exeuntSync (.num c) s))).exited
        = some (.num c)
    ∧ (runLoopOnce cap (callerWrites cap post (exeuntSync .undef s))).exited
        = some (.num 0) := by
  constructor
  · simpa [normalizeCode] using exeunt_run_exits cap (.num c) s post h1 h2 h3
  · simpa [normalizeCode] using exeunt_run_exits cap .undef s post h1 h2 h3

theorem exeunt_terminates_with_status_witness :
    (runLoopOnce 64 (callerWrites 64 [5] (exeuntSync (.num ((7 : Int) : Rat)) initSys))).exited
      = some (.num ((7 : Int) : Rat)) :=
  (exeunt_terminates_with_status 64 7 initSys [5] rfl rfl rfl).1

/-- Claim C3: for a byte volume `N` exceeding the non-blocking buffer
capacity `cap`, the plain immediate termination primitive loses part of
the output (delivered < written — so in particular in at least one of any
number of repeated trials), while `terminate` preserves the full output
(absent the bounded-event-count edge case, which the `ioPoll` model
excludes) and still exits with the given status. -/
theorem exeunt_flushes_large_output (cap N : Nat) (c : Rat) (h : cap < N) :
    ((applyOp cap (.procExit (.num c)) (Sys.write cap N initSys)).exited = some (.num c)
      ∧ (applyOp cap (.procExit (.num c)) (Sys.write cap N initSys)).out.delivered
          < (applyOp cap (.procExit (.num c)) (Sys.write cap N initSys)).out.written)
    ∧ ((runLoopOnce cap (exeuntSync (.num c) (Sys.write cap N initSys))).exited
          = some (.num c)
      ∧ (runLoopOnce cap (exeuntSync (.num c) (Sys.write cap N initSys))).out.delivered
          = (runLoopOnce cap (exeuntSync (.num c) (Sys.write cap N initSys))).out.written) := by
  constructor
  · refine ⟨rfl, ?_⟩
    simp only [applyOp, Sys.write, Chan.write, initSys, initChan]
    simp
    omega
  · simp [runLoopOnce, runTimers, runTasks, runImmediates, ioPoll, exeuntSync,
      setBlockingSys, Sys.write, Chan.write, Chan.setBlock, Chan.poll, runTask,
      normalizeCode, initSys, initChan]

theorem exeunt_flushes_large_output_witness :
    ((applyOp 3 (.procExit (.num 42)) (Sys.write 3 5 initSys)).out.delivered
        < (applyOp 3 (.procExit (.num 42)) (Sys.write 3 5 initSys)).out.written)
    ∧ ((runLoopOnce 3 (exeuntSync (.num 42) (Sys.write 3 5 initSys))).out.delivered
        = (runLoopOnce 3 (exeuntSync (.num 42) (Sys.write 3 5 initSys))).out.written) :=
  ⟨(exeunt_flushes_large_output 3 5 42 (by omega)).1.2,
    (exeunt_flushes_large_output 3 5 42 (by omega)).2.2⟩

/-- Claim C4: `setBlocking` surfaces no error for any configuration of
the two standard streams — even though unguarded property access on an
absent stream, absent handle or absent method would be a runtime
`TypeError` in the model, the short-circuit guards make the result `.ok`
for every configuration, and a channel whose capability guard fails is
left untouched (silently skipped). -/
theorem setBlocking_never_errors (ss : Streams) :
    ∃ ss' : Streams, setBlocking ss = .ok ss'
      ∧ (streamHasCap ss.stdout = false → ss'.stdout = ss.stdout)
      ∧ (streamHasCap ss.stderr = false → ss'.stderr = ss.stderr) := by
  refine ⟨⟨sbResult ss.stdout, sbResult ss.stderr⟩, setBlocking_eq_ok ss, ?_, ?_⟩
  · intro h; simp [sbResult, h]
  · intro h; simp [sbResult, h]

theorem setBlocking_never_errors_witness :
    ∃ ss' : Streams,
      setBlocking ⟨none, some ⟨some ⟨false, false⟩⟩⟩ = .ok ss'
        ∧ ss'.stdout = none ∧ ss'.stderr = some ⟨some ⟨false, false⟩⟩ := by
  obtain ⟨ss', hok, h1, h2⟩ := setBlocking_never_errors ⟨none, some ⟨some ⟨false, false⟩⟩⟩
  exact ⟨ss', hok, h1 rfl, h2 rfl⟩

/-- Claim C5: the stream blocking-mode flags are monotonic for the
remainder of the process lifetime — across every sequence of operations
of the system (program writes, `terminate` calls, `process.exit`, and
the phases of the event loop), a channel once in blocking mode never
returns to non-blocking mode. -/
theorem blocking_flags_monotonic (cap : Nat) (ops : List Op) (s : Sys) :
    (s.out.blocking = true → (applyOps cap ops s).out.blocking = true) ∧
      (s.err.blocking = true → (applyOps cap ops s).err.blocking = true) :=
  applyOps_blocking_mono cap ops s

theorem blocking_flags_monotonic_witness :
    (applyOps 8
        [Op.write 3, Op.timerPhase, Op.pollPhase, Op.exeunt .undef,
          Op.immPhase, Op.procExit (.num 1)]
        (setBlockingSys initSys)).out.blocking = true :=
  (blocking_flags_monotonic 8
    [Op.write 3, Op.timerPhase, Op.pollPhase, Op.exeunt .undef,
      Op.immPhase, Op.procExit (.num 1)]
    (setBlockingSys initSys)).1 rfl

/-- Claim C6: `softExit(c)` (default 0): when the runtime supports
deferred non-terminating exit-code assignment it sets the process-wide
exit code to `c` and returns normally (no forced termination); when it
does not, it forces immediate termination exactly when `c` is non-zero,
and for `c = 0` does nothing. (`softExit` is modelled from the spec:
its source is not among the provided files.) -/
theorem softExit_contract (code : Option Int) (s : SoftState) :
    softExit true code s = { s with exitCode := some (code.getD 0) }
    ∧ (code.getD 0 ≠ 0 → softExit false code s = { s with exited := some (code.getD 0) })
    ∧ (code.getD 0 = 0 → softExit false code s = s) := by
  refine ⟨rfl, ?_, ?_⟩
  · intro h; simp [softExit, h]
  · intro h; simp [softExit, h]

theorem softExit_contract_witness :
    softExit true (some 3) ⟨none, none⟩ = ⟨some 3, none⟩
    ∧ softExit false (some 3) ⟨none, none⟩ = ⟨none, some 3⟩
    ∧ softExit false none ⟨none, none⟩ = ⟨none, none⟩ :=
  ⟨(softExit_contract (some 3) ⟨none, none⟩).1,
    (softExit_contract (some 3) ⟨none, none⟩).2.1 (by decide),
    (softExit_contract none ⟨none, none⟩).2.2 rfl⟩

/-- Claim C7: the blocking-mode toggle step is idempotent — invoking
`setBlocking` twice in succession raises no error and yields the same
stream configuration as invoking it once. -/
theorem setBlocking_idempotent (ss : Streams) :
    ∃ ss' : Streams, setBlocking ss = .ok ss' ∧ setBlocking ss' = .ok ss' := by
  refine ⟨⟨sbResult ss.stdout, sbResult ss.stderr⟩, setBlocking_eq_ok ss, ?_⟩
  have h := setBlocking_eq_ok ⟨sbResult ss.stdout, sbResult ss.stderr⟩
  simpa [sbResult_idem] using h

theorem setBlocking_idempotent_witness :
    ∃ ss' : Streams,
      setBlocking ⟨some ⟨some ⟨true, false⟩⟩, some ⟨none⟩⟩ = .ok ss'
        ∧ setBlocking ss' = .ok ss' :=
  setBlocking_idempotent ⟨some ⟨some ⟨true, false⟩⟩, some ⟨none⟩⟩

/-- Claim C8, counterexample: with no positional argument the demos
compute `65 * 1024 = 66560` bytes, not 65536 as the claim states — and
an explicit argument of `0` also falls back to the default rather than
writing 0 bytes, since `Number('0')` is falsy in `Number(argv[2]) || 65*1024`. -/
theorem demo_default_size_cex :
    writeAndExitDemo none
      = { stdoutWrites := [.line (demoStartLine 66560), .blob 66560, .line demoDoneLine]
        , exitStatus := 42 }
    ∧ (66560 : Int) ≠ 65536
    ∧ demoSize (some 0) = 66560 := by
  refine ⟨?_, by decide, by decide⟩
  have h : demoSize none = 66560 := by decide
  simp [writeAndExitDemo, h]

/-- Claim C8 as amended: each cited demo program
(`write-65k-and-exit.js` and `hardball-after-2s.js`), when given no
positional argument, writes 66560 (`65 * 1024`) bytes to stdout framed
by two diagnostic lines also on stdout, and exits with status 42; given
a non-zero integer positional argument `n` it writes `n` bytes instead,
while an argument of `0` falls back to the default. -/
theorem demo_programs_amended (n : Int) (hn : n ≠ 0) :
    writeAndExitDemo none
      = { stdoutWrites :=
            [.line (demoStartLine defaultDemoSize), .blob defaultDemoSize, .line demoDoneLine]
        , exitStatus := 42 }
    ∧ hardballDemo none
      = { stdoutWrites :=
            [.line (demoStartLine defaultDemoSize), .blob defaultDemoSize, .line demoDoneLine]
        , exitStatus := 42 }
    ∧ defaultDemoSize = 66560
    ∧ writeAndExitDemo (some n)
      = { stdoutWrites := [.line (demoStartLine n), .blob n, .line demoDoneLine]
        , exitStatus := 42 }
    ∧ hardballDemo (some n)
      = { stdoutWrites := [.line (demoStartLine n), .blob n, .line demoDoneLine]
        , exitStatus := 42 }
    ∧ writeAndExitDemo (some 0) = writeAndExitDemo none := by
  refine ⟨rfl, rfl, by decide, ?_, ?_, rfl⟩
  · simp [writeAndExitDemo, demoSize, hn]
  · simp [hardballDemo, demoSize, hn]

theorem demo_programs_amended_witness :
    writeAndExitDemo (some 100)
      = { stdoutWrites := [.line (demoStartLine 100), .blob 100, .line demoDoneLine]
        , exitStatus := 42 }
    ∧ hardballDemo none
      = { stdoutWrites :=
            [.line (demoStartLine defaultDemoSize), .blob defaultDemoSize, .line demoDoneLine]
        , exitStatus := 42 } :=
  ⟨(demo_programs_amended 100 (by decide)).2.2.2.1,
    (demo_programs_amended 100 (by decide)).2.1⟩

/-- Claim C9: only a strictly-`undefined` code argument is replaced by
the default 0; every other value — `null`, `NaN`, a non-integer number —
is forwarded unchanged into the scheduled `process.exit` callback. -/
theorem exeunt_code_passthrough (v : JSVal) (s : Sys) (hv : v ≠ .undef) :
    (exeuntSync v s).immediates = s.immediates ++ [Task.exitTask v]
    ∧ (exeuntSync .undef s).immediates = s.immediates ++ [Task.exitTask (.num 0)] := by
  constructor
  · show s.immediates ++ [Task.exitTask (normalizeCode v)] = _
    rw [normalizeCode, if_neg hv]
  · rfl

theorem exeunt_code_passthrough_witness :
    (exeuntSync .nan initSys).immediates = initSys.immediates ++ [Task.exitTask .nan]
    ∧ (exeuntSync .jsNull initSys).immediates
        = initSys.immediates ++ [Task.exitTask .jsNull]
    ∧ (exeuntSync (.num (1/2)) initSys).immediates
        = initSys.immediates ++ [Task.exitTask (.num (1/2))] :=
  ⟨(exeunt_code_passthrough .nan initSys (by decide)).1,
    (exeunt_code_passthrough .jsNull initSys (by decide)).1,
    (exeunt_code_passthrough (.num (1/2)) initSys (by decide)).1⟩

/-- Claim C10: the capability guards of `setBlocking` are evaluated
independently per channel: the result on stdout is a function of the
stdout configuration alone and likewise for stderr (so a missing
capability on one channel never prevents the other from being set
blocking), and each channel is toggled to blocking mode precisely when
it exists, has an underlying handle, and that handle exposes
`setBlocking`. -/
theorem setBlocking_guards_per_channel (a b : Option Stream) :
    setBlocking ⟨a, b⟩ = .ok ⟨sbResult a, sbResult b⟩
    ∧ sbResult a = (if streamHasCap a then forceBlocking a else a)
    ∧ (streamHasCap a = true → streamBlocking (sbResult a) = some true)
    ∧ (streamHasCap a = false → sbResult a = a)
    ∧ (streamHasCap a = true
        ↔ ∃ st h, a = some st ∧ st.handle = some h ∧ h.hasSetBlocking = true) := by
  refine ⟨setBlocking_eq_ok ⟨a, b⟩, rfl, ?_, ?_, ?_⟩
  · intro h
    match a, h with
    | some ⟨some hd⟩, h =>
      simp [streamHasCap] at h
      simp [sbResult, streamHasCap, forceBlocking, streamBlocking, h]
  · intro h; simp [sbResult, h]
  · constructor
    · intro h
      match a, h with
      | some ⟨some hd⟩, h =>
        exact ⟨⟨some hd⟩, hd, rfl, rfl, by simpa [streamHasCap] using h⟩
    · rintro ⟨st, h, rfl, hh, hc⟩
      cases st with
      | mk ho => cases hh; simpa [streamHasCap] using hc

theorem setBlocking_guards_per_channel_witness :
    setBlocking ⟨some ⟨some ⟨true, false⟩⟩, some ⟨none⟩⟩
      = .ok ⟨some ⟨some ⟨true, true⟩⟩, some ⟨none⟩⟩
    ∧ streamBlocking (sbResult (some ⟨some ⟨true, false⟩⟩)) = some true
    ∧ sbResult (some ⟨none⟩) = some ⟨none⟩ := by
  refine ⟨?_, ?_, ?_⟩
  · have h := (setBlocking_guards_per_channel (some ⟨some ⟨true, false⟩⟩) (some ⟨none⟩)).1
    simpa [sbResult, streamHasCap, forceBlocking] using h
  · exact (setBlocking_guards_per_channel (some ⟨some ⟨true, false⟩⟩) (some ⟨none⟩)).2.2.1 rfl
  · exact (setBlocking_guards_per_channel (some ⟨none⟩) none).2.2.2.1 rfl

end Exeunt
